import Mathlib

/-
  Shallow embedding of the TinyDump repository (src/dumper/dexdumper.rs,
  src/dumper/sodumper.rs, src/utils/types.rs, src/main.rs).

  Byte buffers are modelled as List Nat (each element a byte value);
  machine integers are Nat with explicit reductions modulo 2^32 / 2^64
  where the Rust code can overflow or truncate.  Fallible operations
  return Option or Except.  Reads of a foreign address space go through
  an oracle of type MemOracle.
-/

set_option maxRecDepth 100000

namespace TinyDump

/-- Structural decidable equality for Except, so that concrete runs of the
embedded operations can be checked by evaluation. -/
def exceptDecEq {ε α : Type} [DecidableEq ε] [DecidableEq α] :
    DecidableEq (Except ε α)
  | .error a, .error b =>
    if h : a = b then isTrue (by rw [h])
    else isFalse (fun hh => h (Except.error.inj hh))
  | .error _, .ok _ => isFalse Except.noConfusion
  | .ok _, .error _ => isFalse Except.noConfusion
  | .ok a, .ok b =>
    if h : a = b then isTrue (by rw [h])
    else isFalse (fun hh => h (Except.ok.inj hh))

instance {ε α : Type} [DecidableEq ε] [DecidableEq α] : DecidableEq (Except ε α) :=
  exceptDecEq

/-- Little-endian u32 read via seek + read_exact: succeeds iff all four
bytes exist (models ReadBytesExt::read_u32 over /proc/pid/mem). -/
def readU32 (mem : List Nat) (addr : Nat) : Option Nat := do
  let b0 ← mem.get? addr
  let b1 ← mem.get? (addr + 1)
  let b2 ← mem.get? (addr + 2)
  let b3 ← mem.get? (addr + 3)
  some (b0 + b1 * 256 + b2 * 65536 + b3 * 16777216)

/-- Little-endian u64 read from a byte list (models read_u64 over a slice). -/
def readU64 (mem : List Nat) (addr : Nat) : Option Nat := do
  let b0 ← mem.get? addr
  let b1 ← mem.get? (addr + 1)
  let b2 ← mem.get? (addr + 2)
  let b3 ← mem.get? (addr + 3)
  let b4 ← mem.get? (addr + 4)
  let b5 ← mem.get? (addr + 5)
  let b6 ← mem.get? (addr + 6)
  let b7 ← mem.get? (addr + 7)
  some (b0 + b1 * 2^8 + b2 * 2^16 + b3 * 2^24 + b4 * 2^32 + b5 * 2^40
        + b6 * 2^48 + b7 * 2^56)

/-- Little-endian encoding of a u32 value (WriteBytesExt::write_u32). -/
def u32le (n : Nat) : List Nat :=
  [n % 256, n / 256 % 256, n / 65536 % 256, n / 16777216 % 256]

/-- Little-endian encoding of a u64 value (u64::to_le_bytes). -/
def u64le (n : Nat) : List Nat :=
  [n % 256, n / 2^8 % 256, n / 2^16 % 256, n / 2^24 % 256,
   n / 2^32 % 256, n / 2^40 % 256, n / 2^48 % 256, n / 2^56 % 256]

/-- Write bytes bs at position p into v, as std::io::Cursor over &mut Vec
does: pad with zeros when p is past the end, overwrite, grow as needed. -/
def vecWrite (v : List Nat) (p : Nat) (bs : List Nat) : List Nat :=
  let w := if v.length < p then v ++ List.replicate (p - v.length) 0 else v
  w.take p ++ bs ++ w.drop (p + bs.length)

/-- u32::checked_add. -/
def checkedAdd32 (a b : Nat) : Option Nat :=
  if a + b < 2^32 then some (a + b) else none

/-- u32::checked_mul. -/
def checkedMul32 (a b : Nat) : Option Nat :=
  if a * b < 2^32 then some (a * b) else none

/-- DEX_MAGIC = b"dex\x0a035\x00". -/
def dexMagic : List Nat := [0x64, 0x65, 0x78, 0x0a, 0x30, 0x33, 0x35, 0x00]

/-- DexDumper::guess_dex_size: read the declared file size (offset 0x20),
require the string-ids offset (0x3c) to equal DEX_HEADER_SIZE = 0x70, read
the map offset (0x34) and the entry count at that offset, and compute
map_off + map_size * 0xC + 4 with checked u32 arithmetic. -/
def guess_dex_size (mem : List Nat) (dex_header_addr : Nat) : Option (Nat × Nat) := do
  let file_size ← readU32 mem (dex_header_addr + 0x20)
  let string_ids_off ← readU32 mem (dex_header_addr + 0x3c)
  if string_ids_off ≠ 0x70 then
    none
  else do
    let map_off ← readU32 mem (dex_header_addr + 0x34)
    let map_size ← readU32 mem (dex_header_addr + map_off)
    let m ← checkedMul32 map_size 0xC
    let s ← checkedAdd32 map_off m
    let real_size ← checkedAdd32 s 4
    some (file_size, real_size)

/-- First half of DexDumper::fix_dex_header: overwrite the magic, the
file-size field (0x20) with the input length truncated to u32, and the
header-size field (0x24) with 0x70. -/
def fixStage (dex : List Nat) : List Nat :=
  vecWrite (vecWrite (vecWrite dex 0 dexMagic) 0x20 (u32le (dex.length % 2^32)))
    0x24 (u32le 0x70)

/-- Second half of DexDumper::fix_dex_header: after the three writes, read
the endian tag at 0x28 (failing if the buffer, even after the growth the
cursor writes may cause, is still too short) and replace it by the
canonical tag only when it is neither the canonical nor the swapped tag. -/
def fix_dex_header (dex : List Nat) : Option (List Nat) :=
  (readU32 (fixStage dex) 0x28).bind (fun endian_tag =>
    if endian_tag ≠ 0x12345678 ∧ endian_tag ≠ 0x78563412 then
      some (vecWrite (fixStage dex) 0x28 (u32le 0x12345678))
    else
      some (fixStage dex))

/-- Error taxonomy of the so-dump engine (anyhow errors are distinguished
by the site that raised them). -/
inductive SoErr where
  | parseErr
  | noLinker
  | noTarget
  | bit32
  | readFail
  | chainExhausted
  | chainNotFound
  | dumpFail
  deriving DecidableEq, Repr

/-- utils::types::MemoryMapping. -/
structure MemoryMapping where
  start : Nat
  stop : Nat
  permissions : String
  offset : Nat
  device : String
  inode : Nat
  pathname : String
  deriving DecidableEq, Repr

/-- utils::types::SoInfo. -/
structure SoInfo where
  base : Nat
  size : Nat
  next : Nat
  deriving DecidableEq, Repr

/-- Whitespace characters of a maps line. -/
def wsChar (c : Char) : Bool :=
  c = ' ' || c = '\t'

/-- Accumulator-style tokenizer dropping empty tokens. -/
def splitWsAux : List Char → List Char → List (List Char)
  | [], acc =>
    match acc with
    | [] => []
    | _ => [acc.reverse]
  | c :: cs, acc =>
    if wsChar c then
      match acc with
      | [] => splitWsAux cs []
      | _ => acc.reverse :: splitWsAux cs []
    else
      splitWsAux cs (c :: acc)

/-- str::split_whitespace: split on whitespace runs, dropping empty pieces. -/
def splitWs (s : String) : List String :=
  (splitWsAux s.data []).map String.mk

/-- str::split on one separator character, keeping empty pieces. -/
def splitOnChar (sep : Char) : List Char → List Char → List (List Char)
  | [], acc => [acc.reverse]
  | c :: cs, acc =>
    if c = sep then acc.reverse :: splitOnChar sep cs []
    else splitOnChar sep cs (c :: acc)

/-- Value of one hexadecimal digit character, if any. -/
def hexDigit (c : Char) : Option Nat :=
  if '0' ≤ c ∧ c ≤ '9' then some (c.toNat - '0'.toNat)
  else if 'a' ≤ c ∧ c ≤ 'f' then some (c.toNat - 'a'.toNat + 10)
  else if 'A' ≤ c ∧ c ≤ 'F' then some (c.toNat - 'A'.toNat + 10)
  else none

/-- Value of one decimal digit character, if any. -/
def decDigit (c : Char) : Option Nat :=
  if '0' ≤ c ∧ c ≤ '9' then some (c.toNat - '0'.toNat) else none

/-- Accumulate digits of a string in a given radix. -/
def digitsVal (digit : Char → Option Nat) (radix : Nat) : List Char → Nat → Option Nat
  | [], acc => some acc
  | c :: cs, acc => do
    let d ← digit c
    digitsVal digit radix cs (acc * radix + d)

/-- u64::from_str_radix(s, 16): optional leading plus sign, at least one
digit, all digits hexadecimal, and the value must fit in 64 bits. -/
def parseHexU64 (s : String) : Except SoErr Nat :=
  let cs := match s.data with
    | '+' :: rest => rest
    | cs => cs
  match cs with
  | [] => .error .parseErr
  | _ =>
    match digitsVal hexDigit 16 cs 0 with
    | some v => if v < 2^64 then .ok v else .error .parseErr
    | none => .error .parseErr

/-- str::parse::<u64>(): optional leading plus sign, at least one decimal
digit, value must fit in 64 bits. -/
def parseDecU64 (s : String) : Except SoErr Nat :=
  let cs := match s.data with
    | '+' :: rest => rest
    | cs => cs
  match cs with
  | [] => .error .parseErr
  | _ =>
    match digitsVal decDigit 10 cs 0 with
    | some v => if v < 2^64 then .ok v else .error .parseErr
    | none => .error .parseErr

/-- Parse the fields of one maps line that has at least six
whitespace-separated parts.  The address field is split on the dash; a
missing second half (an out-of-bounds index in the Rust code) and every
numeric-parse failure abort with an error, exactly as the question-mark
operator (or the index panic) does in SoDumper::parse_proc_maps. -/
def parseMapsFields (parts : List String) : Except SoErr MemoryMapping := do
  let p0 := parts.getD 0 ""
  match (splitOnChar '-' p0.data []).map String.mk with
  | a0 :: a1 :: _ => do
    let start ← parseHexU64 a0
    let stop ← parseHexU64 a1
    let permissions := parts.getD 1 ""
    let offset ← parseHexU64 (parts.getD 2 "")
    let device := parts.getD 3 ""
    let inode ← parseDecU64 (parts.getD 4 "")
    let pathname := parts.getD 5 ""
    .ok ⟨start, stop, permissions, offset, device, inode, pathname⟩
  | _ => .error .parseErr

/-- SoDumper::parse_proc_maps over the lines of /proc/pid/maps: lines with
fewer than six parts are skipped; for the rest, any field-parse failure is
propagated and aborts the whole enumeration. -/
def parse_proc_maps : List String → Except SoErr (List MemoryMapping)
  | [] => .ok []
  | line :: rest =>
    let parts := splitWs line
    if 6 ≤ parts.length then do
      let m ← parseMapsFields parts
      let ms ← parse_proc_maps rest
      .ok (m :: ms)
    else
      parse_proc_maps rest

/-- Whether pat occurs at the start of s (helper for substring search). -/
def charsLeadQ : List Char → List Char → Bool
  | [], _ => true
  | _ :: _, [] => false
  | a :: as, b :: bs => a = b && charsLeadQ as bs

/-- Whether pat occurs contiguously anywhere in s. -/
def charsOccurIn (pat : List Char) : List Char → Bool
  | [] => charsLeadQ pat []
  | c :: tl => charsLeadQ pat (c :: tl) || charsOccurIn pat tl

/-- str::contains(pat). -/
def strContains (s pat : String) : Bool :=
  charsOccurIn pat.data s.data

/-- SoDumper::get_linker_base: first mapping whose pathname contains
"linker64". -/
def get_linker_base (lines : List String) : Except SoErr Nat := do
  let mappings ← parse_proc_maps lines
  match mappings.find? (fun m => strContains m.pathname "linker64") with
  | some m => .ok m.start
  | none => .error .noLinker

/-- One step of the mapping scan in SoDumper::get_target_mapping: on a
pathname match, keep the first start seen and overwrite the end. -/
def targetFoldStep (target_name : String) (acc : Option Nat × Option Nat)
    (m : MemoryMapping) : Option Nat × Option Nat :=
  if strContains m.pathname target_name then
    ((acc.1).orElse (fun _ => some m.start), some m.stop)
  else acc

/-- SoDumper::get_target_mapping: fold over all mappings, recording the
first matching start and the last matching end; then reject bases at or
below 0x7fffffff as 32-bit. -/
def get_target_mapping (lines : List String) (target_name : String) :
    Except SoErr (Nat × Nat) := do
  let mappings ← parse_proc_maps lines
  let st := mappings.foldl (targetFoldStep target_name) (none, none)
  match st with
  | (some start, some stop) =>
    if start > 0x7fffffff then .ok (start, stop) else .error .bit32
  | _ => .error .noTarget

/-- Oracle for reads of the foreign address space via /proc/pid/mem:
address and length to the bytes there, or a failure. -/
def MemOracle : Type := Nat → Nat → Except Unit (List Nat)

/-- SoDumper::read_process_memory: seek + read_exact, so a success always
returns exactly the requested number of bytes. -/
def read_process_memory (mem : MemOracle) (address size : Nat) :
    Except SoErr (List Nat) :=
  match mem address size with
  | .ok bs => if bs.length = size then .ok bs else .error .readFail
  | .error _ => .error .readFail

/-- SoDumper::get_solist_head: read 8 bytes at the solist address and
decode them as a little-endian u64. -/
def get_solist_head (mem : MemOracle) (solist_addr : Nat) : Except SoErr Nat := do
  let data ← read_process_memory mem solist_addr 8
  match readU64 data 0 with
  | some v => .ok v
  | none => .error .readFail

/-- SoDumper::parse_soinfo: read a 256-byte record and decode base, size
and next from offsets 0x10, 0x18 and 0x28. -/
def parse_soinfo (mem : MemOracle) (soinfo_addr : Nat) : Except SoErr SoInfo := do
  let data ← read_process_memory mem soinfo_addr 256
  match readU64 data 0x10, readU64 data 0x18, readU64 data 0x28 with
  | some base, some size, some next => .ok ⟨base, size, next⟩
  | _, _, _ => .error .readFail

/-- Loop of SoDumper::find_target_soinfo, instrumented with the number of
soinfo records read.  The fuel argument is the number of iterations still
allowed by MAX_ITERATIONS. -/
def find_loop (mem : MemOracle) (target_base : Nat) :
    Nat → Nat → Except SoErr Nat × Nat
  | _, 0 => (.error .chainExhausted, 0)
  | current, fuel + 1 =>
    if current = 0 then (.error .chainExhausted, 0)
    else
      match parse_soinfo mem current with
      | .error e => (.error e, 1)
      | .ok so =>
        if so.base = target_base then (.ok so.size, 1)
        else
          let r := find_loop mem target_base so.next fuel
          (r.1, r.2 + 1)

/-- SoDumper::find_target_soinfo: walk the chain from the head with
MAX_ITERATIONS = 1000; the second component counts visited records. -/
def find_target_soinfo (mem : MemOracle) (solist_head target_base : Nat) :
    Except SoErr Nat × Nat :=
  find_loop mem target_base solist_head 1000

/-- Scan of SoDumper::search_soinfo_chain over the fetched window: at each
position whose 8-byte window equals the pattern, return the u64 right
after it when it fits in the window, otherwise keep scanning. -/
def chainScan (data pat : List Nat) (pos : Nat) : Except SoErr Nat :=
  if h : pos + 8 ≤ data.length then
    if (data.drop pos).take 8 = pat then
      if pos + 16 ≤ data.length then
        match readU64 data (pos + 8) with
        | some v => .ok v
        | none => chainScan data pat (pos + 1)
      else chainScan data pat (pos + 1)
    else chainScan data pat (pos + 1)
  else .error .chainNotFound
  termination_by data.length - pos
  decreasing_by all_goals omega

/-- SoDumper::search_soinfo_chain: read a 256 KiB window at the solist
head and scan it for the little-endian encoding of the target base. -/
def search_soinfo_chain (mem : MemOracle) (solist_head target_base : Nat) :
    Except SoErr Nat := do
  let chain_data ← read_process_memory mem solist_head (256 * 1024)
  chainScan chain_data (u64le target_base) 0

/-- Size selection of SoDumper::dump (the match over the structured walk
and the raw fallback, with the 10x sanity clamp; the u64 product wraps
modulo 2^64 as release-mode Rust arithmetic does). -/
def choose_so_size (findRes searchRes : Except SoErr Nat) (target_size : Nat) : Nat :=
  match findRes with
  | .ok size => if size > target_size * 10 % 2^64 then target_size else size
  | .error _ =>
    match searchRes with
    | .ok size => if size > target_size * 10 % 2^64 then target_size else size
    | .error _ => target_size

/-- Body of SoDumper::dump after the pause (the inner closure): resolve the
linker base and the target mapping from the maps lines, read the solist
head, resolve the size through the walk, the fallback and the clamp, then
read the dump span.  The second component counts the reads of the foreign
address space that were performed; writeOk models the filesystem write of
the dump (the auto-fix step ignores its own errors and is dropped). -/
def soDumpBody (solist_offset : Nat) (target_name : String) (lines : List String)
    (mem : MemOracle) (writeOk : Bool) : Except SoErr Nat × Nat :=
  match get_linker_base lines with
  | .error e => (.error e, 0)
  | .ok linker_base =>
    match get_target_mapping lines target_name with
    | .error e => (.error e, 0)
    | .ok (target_base, target_end) =>
      let target_size := (2^64 + target_end - target_base) % 2^64
      let solist_addr := (linker_base + solist_offset) % 2^64
      match get_solist_head mem solist_addr with
      | .error e => (.error e, 1)
      | .ok solist_head =>
        let fr := find_target_soinfo mem solist_head target_base
        let sr := search_soinfo_chain mem solist_head target_base
        let searchReads := match fr.1 with
          | .ok _ => 0
          | .error _ => 1
        let so_size := choose_so_size fr.1 sr target_size
        match read_process_memory mem target_base so_size with
        | .error _ => (.error .readFail, 1 + fr.2 + searchReads + 1)
        | .ok _ =>
          ((if writeOk then .ok so_size else .error .dumpFail),
           1 + fr.2 + searchReads + 1)

/-- Signals sent to the target process. -/
inductive Sig where
  | stp
  | cont
  deriving DecidableEq, Repr

/-- Outcome of one step of extraction work: a normal success, a caught
error return, or a panic that unwinds through the caller. -/
inductive StepOut where
  | ok
  | err
  | panicked
  deriving DecidableEq, Repr

/-- Signal trace and result of SoDumper::dump.  stop_process sends
SIGSTOP and a failure aborts; the inner closure catches its own errors;
continue_process is then called with the question-mark operator, so its
failure replaces the result.  SoDumper has no Drop implementation, so a
panic in the closure unwinds without any SIGCONT being sent. -/
def soDumpTrace (stopOk : Bool) (body : StepOut) (contOk : Bool) :
    StepOut × List Sig :=
  if stopOk = false then (.err, [.stp])
  else
    match body with
    | .panicked => (.panicked, [.stp])
    | b => if contOk then (b, [.stp, .cont]) else (.err, [.stp, .cont])

/-- Signal trace and result of the dex run in main: attach_process sends
SIGSTOP then reads the maps table; search_dex runs; in every path after
construction the dumper is dropped and Drop sends SIGCONT, ignoring its
result (so contOk cannot influence the outcome), including when
search_dex panics and unwinds. -/
def dexDumpTrace (stopOk mapsOk : Bool) (search : StepOut) (_contOk : Bool) :
    StepOut × List Sig :=
  if stopOk = false then (.err, [.stp, .cont])
  else if mapsOk = false then (.err, [.stp, .cont])
  else
    match search with
    | .panicked => (.panicked, [.stp, .cont])
    | s => (s, [.stp, .cont])

/-! Concrete inputs used to exercise the embedded operations. -/

/-- A 0x74-byte buffer with the DEX magic, a consistent string-ids field
(0x70), map offset 0x70 and entry count 0xFFFFFFFF there, so that the
checked size computation overflows u32. -/
def overflowDex : List Nat :=
  vecWrite (vecWrite (vecWrite (vecWrite (List.replicate 0x74 0) 0 dexMagic)
    0x34 (u32le 0x70)) 0x3c (u32le 0x70)) 0x70 [0xFF, 0xFF, 0xFF, 0xFF]

/-- A 0x40-byte buffer with the DEX magic, a consistent string-ids field,
map offset 0x20 (aliasing the declared file-size field) and declared file
size 1. -/
def aliasDexA : List Nat :=
  vecWrite (vecWrite (vecWrite (vecWrite (List.replicate 0x40 0) 0 dexMagic)
    0x34 (u32le 0x20)) 0x3c (u32le 0x70)) 0x20 (u32le 1)

/-- The same buffer with only the declared file-size field changed to 2. -/
def aliasDexB : List Nat :=
  vecWrite aliasDexA 0x20 (u32le 2)

/-- A 0x80-byte well-formed recovery input: magic, string-ids field 0x70,
map offset 0x70, entry count 2 there. -/
def goodDex : List Nat :=
  vecWrite (vecWrite (vecWrite (vecWrite (List.replicate 0x80 0) 0 dexMagic)
    0x34 (u32le 0x70)) 0x3c (u32le 0x70)) 0x70 (u32le 2)

/-- goodDex with a different declared file-size field. -/
def goodDexB : List Nat :=
  vecWrite goodDex 0x20 (u32le 9)

/-- goodDex with an inconsistent string-ids field. -/
def badIdsDex : List Nat :=
  vecWrite goodDex 0x3c (u32le 5)

/-- A 0x30-byte buffer of sevens, a header-synthesis input. -/
def sampleDex : List Nat := List.replicate 0x30 7

/-- The output of header synthesis on sampleDex. -/
def sampleFixed : List Nat :=
  [0x64, 0x65, 0x78, 0x0a, 0x30, 0x33, 0x35, 0x00,
   7, 7, 7, 7, 7, 7, 7, 7, 7, 7, 7, 7, 7, 7, 7, 7, 7, 7, 7, 7, 7, 7, 7, 7,
   0x30, 0, 0, 0, 0x70, 0, 0, 0, 0x78, 0x56, 0x34, 0x12, 7, 7, 7, 7]

/-- A 256-byte soinfo record with the given base, size and next fields at
offsets 0x10, 0x18 and 0x28. -/
def soRecord (b s n : Nat) : List Nat :=
  vecWrite (vecWrite (vecWrite (List.replicate 256 0) 0x10 (u64le b))
    0x18 (u64le s)) 0x28 (u64le n)

/-- An address space holding a single soinfo record at address 64 with
base 5, size 77 and a null next pointer. -/
def soMemOne : MemOracle := fun a sz =>
  if a = 64 ∧ sz = 256 then .ok (soRecord 5 77 0) else .error ()

/-- An address space holding one soinfo record at address 100 with base 1,
size 10 and next pointer 200, where the read at address 200 fails: a chain
whose traversal is stopped by a failed record read. -/
def soMemTwo : MemOracle := fun a sz =>
  if a = 100 ∧ sz = 256 then .ok (soRecord 1 10 200) else .error ()

/-- A maps line for a low-based target library. -/
def mapsLineLow : String :=
  "10000-20000 r-xp 00000000 fd:00 1234 /data/app/libfoo.so"

/-- A maps line for the linker at a 64-bit base. -/
def mapsLineLinker : String :=
  "7123456000-7123457000 r-xp 00000000 fd:00 99 /system/bin/linker64"

/-- A maps line whose address field does not parse as hexadecimal. -/
def mapsLineBad : String :=
  "zz-qq r-xp 00000000 fd:00 0 /data/app/libbar.so"

/-- A second well-formed maps line. -/
def mapsLineHigh : String :=
  "7200000000-7200004000 rw-p 00000000 fd:00 77 /data/app/libbaz.so"

/-! Lemmas about the byte-buffer primitives. -/

theorem vecWrite_eq_of_le {v : List Nat} {p : Nat} (bs : List Nat)
    (h : p ≤ v.length) :
    vecWrite v p bs = v.take p ++ bs ++ v.drop (p + bs.length) := by
  unfold vecWrite
  rw [if_neg (by omega)]

theorem vecWrite_length {v : List Nat} {p : Nat} {bs : List Nat}
    (h : p + bs.length ≤ v.length) :
    (vecWrite v p bs).length = v.length := by
  rw [vecWrite_eq_of_le bs (by omega)]
  simp [List.length_take, List.length_drop]
  omega

theorem vecWrite_length_general (v : List Nat) (p : Nat) (bs : List Nat) :
    (vecWrite v p bs).length = max v.length (p + bs.length) := by
  unfold vecWrite
  by_cases h : v.length < p
  · rw [if_pos h]
    simp [List.length_take, List.length_drop, List.length_append]
    omega
  · rw [if_neg h]
    simp [List.length_take, List.length_drop]
    omega

theorem vecWrite_get?_lt {v : List Nat} {p i : Nat} (bs : List Nat)
    (hp : p ≤ v.length) (hi : i < p) :
    (vecWrite v p bs).get? i = v.get? i := by
  rw [vecWrite_eq_of_le bs hp, List.append_assoc,
    List.get?_append (by simp [List.length_take]; omega),
    List.get?_take hi]

theorem vecWrite_get?_inside {v : List Nat} {p i : Nat} {bs : List Nat}
    (hp : p ≤ v.length) (hi : i < bs.length) :
    (vecWrite v p bs).get? (p + i) = bs.get? i := by
  rw [vecWrite_eq_of_le bs hp]
  have hlen : (v.take p).length = p := by simp [List.length_take]; omega
  rw [List.append_assoc, List.get?_append_right (by omega), hlen,
    List.get?_append (by omega)]
  congr 1
  omega

theorem vecWrite_get?_ge {v : List Nat} {p i : Nat} {bs : List Nat}
    (hp : p ≤ v.length) (hi : p + bs.length ≤ i) :
    (vecWrite v p bs).get? i = v.get? i := by
  rw [vecWrite_eq_of_le bs hp]
  have hlen : (v.take p).length = p := by simp [List.length_take]; omega
  rw [List.append_assoc, List.get?_append_right (by omega), hlen,
    List.get?_append_right (by omega), List.get?_drop]
  congr 1
  omega

theorem vecWrite_self {v : List Nat} {p : Nat} {bs : List Nat}
    (hp : p + bs.length ≤ v.length)
    (hbs : ∀ i, i < bs.length → v.get? (p + i) = bs.get? i) :
    vecWrite v p bs = v := by
  apply List.ext
  intro n
  rcases Nat.lt_or_ge n p with h1 | h1
  · exact vecWrite_get?_lt bs (by omega) h1
  · rcases Nat.lt_or_ge n (p + bs.length) with h2 | h2
    · have : n = p + (n - p) := by omega
      rw [this, vecWrite_get?_inside (by omega) (by omega), ← hbs (n - p) (by omega)]
    · exact vecWrite_get?_ge (by omega) h2

theorem readU32_congr {v w : List Nat} {a : Nat}
    (h : ∀ j, a ≤ j → j < a + 4 → v.get? j = w.get? j) :
    readU32 v a = readU32 w a := by
  unfold readU32
  rw [h a (by omega) (by omega), h (a + 1) (by omega) (by omega),
    h (a + 2) (by omega) (by omega), h (a + 3) (by omega) (by omega)]

theorem readU32_eq_none {v : List Nat} {a : Nat} (h : v.length < a + 4) :
    readU32 v a = none := by
  have h3 : v.get? (a + 3) = none := List.get?_eq_none.mpr (by omega)
  unfold readU32
  cases hv0 : v.get? a with
  | none => rfl
  | some b0 =>
    cases hv1 : v.get? (a + 1) with
    | none => rfl
    | some b1 =>
      cases hv2 : v.get? (a + 2) with
      | none => rfl
      | some b2 =>
        rw [h3]
        rfl

theorem readU32_isSome {v : List Nat} {a : Nat} (h : a + 4 ≤ v.length) :
    ∃ x, readU32 v a = some x := by
  unfold readU32
  have g : ∀ j, j < v.length → ∃ y, v.get? j = some y := by
    intro j hj
    cases hv : v.get? j with
    | none => exact absurd (List.get?_eq_none.mp hv) (by omega)
    | some y => exact ⟨y, rfl⟩
  obtain ⟨b0, h0⟩ := g a (by omega)
  obtain ⟨b1, h1⟩ := g (a + 1) (by omega)
  obtain ⟨b2, h2⟩ := g (a + 2) (by omega)
  obtain ⟨b3, h3⟩ := g (a + 3) (by omega)
  rw [h0, h1, h2, h3]
  exact ⟨_, rfl⟩

theorem readU32_some_length {v : List Nat} {a x : Nat}
    (h : readU32 v a = some x) : a + 4 ≤ v.length := by
  by_contra hc
  rw [readU32_eq_none (by omega)] at h
  cases h

theorem readU32_of_get? {v : List Nat} {a b0 b1 b2 b3 : Nat}
    (h0 : v.get? a = some b0) (h1 : v.get? (a + 1) = some b1)
    (h2 : v.get? (a + 2) = some b2) (h3 : v.get? (a + 3) = some b3) :
    readU32 v a = some (b0 + b1 * 256 + b2 * 65536 + b3 * 16777216) := by
  unfold readU32
  rw [h0, h1, h2, h3]
  rfl

theorem u32le_length (n : Nat) : (u32le n).length = 4 := rfl

theorem readU32_vecWrite_u32le {v : List Nat} {p n : Nat}
    (hp : p + 4 ≤ v.length) (hn : n < 2^32) :
    readU32 (vecWrite v p (u32le n)) p = some n := by
  have h0 := @vecWrite_get?_inside v p 0 (u32le n) (by omega)
    (by simp [u32le_length])
  have h1 := @vecWrite_get?_inside v p 1 (u32le n) (by omega)
    (by simp [u32le_length])
  have h2 := @vecWrite_get?_inside v p 2 (u32le n) (by omega)
    (by simp [u32le_length])
  have h3 := @vecWrite_get?_inside v p 3 (u32le n) (by omega)
    (by simp [u32le_length])
  rw [show (u32le n).get? 0 = some (n % 256) from rfl, Nat.add_zero] at h0
  rw [show (u32le n).get? 1 = some (n / 256 % 256) from rfl] at h1
  rw [show (u32le n).get? 2 = some (n / 65536 % 256) from rfl] at h2
  rw [show (u32le n).get? 3 = some (n / 16777216 % 256) from rfl] at h3
  rw [readU32_of_get? h0 h1 h2 h3]
  congr 1
  omega

/-! Lemmas about header synthesis. -/

theorem dexMagic_length : dexMagic.length = 8 := rfl

theorem fixStage_length {dex : List Nat} (h : 0x2C ≤ dex.length) :
    (fixStage dex).length = dex.length := by
  have hA : (vecWrite dex 0 dexMagic).length = dex.length :=
    vecWrite_length (by rw [dexMagic_length]; omega)
  have hB : (vecWrite (vecWrite dex 0 dexMagic) 0x20 (u32le (dex.length % 2^32))).length
      = dex.length := by
    rw [vecWrite_length (by rw [hA, u32le_length]; omega), hA]
  unfold fixStage
  rw [vecWrite_length (by rw [hB, u32le_length]; omega), hB]

theorem fixStage_get?_magic {dex : List Nat} (h : 0x2C ≤ dex.length)
    {i : Nat} (hi : i < 8) :
    (fixStage dex).get? i = dexMagic.get? i := by
  have hA : (vecWrite dex 0 dexMagic).length = dex.length :=
    vecWrite_length (by rw [dexMagic_length]; omega)
  have hB : (vecWrite (vecWrite dex 0 dexMagic) 0x20 (u32le (dex.length % 2^32))).length
      = dex.length := by
    rw [vecWrite_length (by rw [hA, u32le_length]; omega), hA]
  unfold fixStage
  rw [vecWrite_get?_lt _ (by rw [hB]; omega) (by omega),
    vecWrite_get?_lt _ (by rw [hA]; omega) (by omega)]
  have := @vecWrite_get?_inside dex 0 i dexMagic
    (by omega) (by rw [dexMagic_length]; omega)
  rwa [Nat.zero_add] at this

theorem fixStage_get?_untouched {dex : List Nat} (h : 0x2C ≤ dex.length)
    {i : Nat} (hi : (8 ≤ i ∧ i < 0x20) ∨ 0x28 ≤ i) :
    (fixStage dex).get? i = dex.get? i := by
  have hA : (vecWrite dex 0 dexMagic).length = dex.length :=
    vecWrite_length (by rw [dexMagic_length]; omega)
  have hB : (vecWrite (vecWrite dex 0 dexMagic) 0x20 (u32le (dex.length % 2^32))).length
      = dex.length := by
    rw [vecWrite_length (by rw [hA, u32le_length]; omega), hA]
  unfold fixStage
  rcases hi with ⟨hi1, hi2⟩ | hi1
  · rw [vecWrite_get?_lt _ (by rw [hB]; omega) (by omega),
      vecWrite_get?_lt _ (by rw [hA]; omega) (by omega),
      vecWrite_get?_ge (by omega) (by rw [dexMagic_length]; omega)]
  · rw [vecWrite_get?_ge (by rw [hB]; omega) (by rw [u32le_length]; omega),
      vecWrite_get?_ge (by rw [hA]; omega) (by rw [u32le_length]; omega),
      vecWrite_get?_ge (by omega) (by rw [dexMagic_length]; omega)]

theorem fixStage_get?_size {dex : List Nat} (h : 0x2C ≤ dex.length)
    {i : Nat} (hi : i < 4) :
    (fixStage dex).get? (0x20 + i) = (u32le (dex.length % 2^32)).get? i := by
  have hA : (vecWrite dex 0 dexMagic).length = dex.length :=
    vecWrite_length (by rw [dexMagic_length]; omega)
  have hB : (vecWrite (vecWrite dex 0 dexMagic) 0x20 (u32le (dex.length % 2^32))).length
      = dex.length := by
    rw [vecWrite_length (by rw [hA, u32le_length]; omega), hA]
  unfold fixStage
  rw [vecWrite_get?_lt _ (by rw [hB]; omega) (by omega),
    vecWrite_get?_inside (by rw [hA]; omega) (by rw [u32le_length]; omega)]

theorem fixStage_get?_hdr {dex : List Nat} (h : 0x2C ≤ dex.length)
    {i : Nat} (hi : i < 4) :
    (fixStage dex).get? (0x24 + i) = (u32le 0x70).get? i := by
  have hA : (vecWrite dex 0 dexMagic).length = dex.length :=
    vecWrite_length (by rw [dexMagic_length]; omega)
  have hB : (vecWrite (vecWrite dex 0 dexMagic) 0x20 (u32le (dex.length % 2^32))).length
      = dex.length := by
    rw [vecWrite_length (by rw [hA, u32le_length]; omega), hA]
  unfold fixStage
  rw [vecWrite_get?_inside (by rw [hB]; omega) (by rw [u32le_length]; omega)]

theorem fixStage_tag {dex : List Nat} (h : 0x2C ≤ dex.length) :
    readU32 (fixStage dex) 0x28 = readU32 dex 0x28 := by
  apply readU32_congr
  intro j hj1 hj2
  exact fixStage_get?_untouched h (Or.inr hj1)

theorem fix_dex_header_none_of_short {dex : List Nat} (h : dex.length < 0x2C) :
    fix_dex_header dex = none := by
  have hlen : (fixStage dex).length < 0x2C := by
    unfold fixStage
    rw [vecWrite_length_general, vecWrite_length_general, vecWrite_length_general,
      dexMagic_length, u32le_length, u32le_length]
    omega
  unfold fix_dex_header
  rw [readU32_eq_none (by omega), Option.none_bind]

/-- Inversion of a successful header synthesis: the input was at least
0x2C bytes long, the tag was readable from the input, and the output is
the staged buffer, with the tag overwritten exactly when it was
unrecognized. -/
theorem fix_dex_header_inv {dex out : List Nat}
    (h : fix_dex_header dex = some out) :
    0x2C ≤ dex.length ∧
    ∃ t, readU32 dex 0x28 = some t ∧
      ((¬(t = 0x12345678 ∨ t = 0x78563412) ∧
        out = vecWrite (fixStage dex) 0x28 (u32le 0x12345678)) ∨
       ((t = 0x12345678 ∨ t = 0x78563412) ∧ out = fixStage dex)) := by
  have hlen : 0x2C ≤ dex.length := by
    by_contra hc
    rw [fix_dex_header_none_of_short (by omega)] at h
    cases h
  refine ⟨hlen, ?_⟩
  obtain ⟨t, ht⟩ := readU32_isSome (v := dex) (a := 0x28) (by omega)
  refine ⟨t, ht, ?_⟩
  unfold fix_dex_header at h
  rw [fixStage_tag hlen, ht, Option.some_bind] at h
  by_cases hrec : t = 0x12345678 ∨ t = 0x78563412
  · right
    refine ⟨hrec, ?_⟩
    rw [if_neg (by tauto)] at h
    exact (Option.some.inj h).symm
  · left
    refine ⟨hrec, ?_⟩
    rw [if_pos (by tauto)] at h
    exact (Option.some.inj h).symm

/-- With a readable tag, header synthesis is the branch on whether the tag
is recognized. -/
theorem fix_dex_header_eq_if {dex : List Nat} {t : Nat}
    (hlen : 0x2C ≤ dex.length) (ht : readU32 dex 0x28 = some t) :
    fix_dex_header dex = (if t ≠ 0x12345678 ∧ t ≠ 0x78563412 then
      some (vecWrite (fixStage dex) 0x28 (u32le 0x12345678))
    else some (fixStage dex)) := by
  have key : fix_dex_header dex = (readU32 (fixStage dex) 0x28).bind
      (fun endian_tag =>
        if endian_tag ≠ 0x12345678 ∧ endian_tag ≠ 0x78563412 then
          some (vecWrite (fixStage dex) 0x28 (u32le 0x12345678))
        else
          some (fixStage dex)) := rfl
  rw [fixStage_tag hlen, ht, Option.some_bind] at key
  exact key

theorem fix_dex_header_out_length {dex out : List Nat}
    (h : fix_dex_header dex = some out) : out.length = dex.length := by
  obtain ⟨hlen, t, ht, hcase⟩ := fix_dex_header_inv h
  rcases hcase with ⟨hr, ho⟩ | ⟨hr, ho⟩
  · rw [ho, vecWrite_length (by rw [fixStage_length hlen, u32le_length]; omega)]
    exact fixStage_length hlen
  · rw [ho]
    exact fixStage_length hlen

theorem fix_dex_header_out_magic {dex out : List Nat}
    (h : fix_dex_header dex = some out) {i : Nat} (hi : i < 8) :
    out.get? i = dexMagic.get? i := by
  obtain ⟨hlen, t, ht, hcase⟩ := fix_dex_header_inv h
  rcases hcase with ⟨hr, ho⟩ | ⟨hr, ho⟩
  · rw [ho, vecWrite_get?_lt _ (by rw [fixStage_length hlen]; omega) (by omega)]
    exact fixStage_get?_magic hlen hi
  · rw [ho]
    exact fixStage_get?_magic hlen hi

theorem fix_dex_header_out_size {dex out : List Nat}
    (h : fix_dex_header dex = some out) {i : Nat} (hi : i < 4) :
    out.get? (0x20 + i) = (u32le (dex.length % 2^32)).get? i := by
  obtain ⟨hlen, t, ht, hcase⟩ := fix_dex_header_inv h
  rcases hcase with ⟨hr, ho⟩ | ⟨hr, ho⟩
  · rw [ho, vecWrite_get?_lt _ (by rw [fixStage_length hlen]; omega) (by omega)]
    exact fixStage_get?_size hlen hi
  · rw [ho]
    exact fixStage_get?_size hlen hi

theorem fix_dex_header_out_hdr {dex out : List Nat}
    (h : fix_dex_header dex = some out) {i : Nat} (hi : i < 4) :
    out.get? (0x24 + i) = (u32le 0x70).get? i := by
  obtain ⟨hlen, t, ht, hcase⟩ := fix_dex_header_inv h
  rcases hcase with ⟨hr, ho⟩ | ⟨hr, ho⟩
  · rw [ho, vecWrite_get?_lt _ (by rw [fixStage_length hlen]; omega) (by omega)]
    exact fixStage_get?_hdr hlen hi
  · rw [ho]
    exact fixStage_get?_hdr hlen hi

theorem fix_dex_header_out_untouched {dex out : List Nat}
    (h : fix_dex_header dex = some out) {i : Nat}
    (hi : (8 ≤ i ∧ i < 0x20) ∨ 0x2C ≤ i) :
    out.get? i = dex.get? i := by
  obtain ⟨hlen, t, ht, hcase⟩ := fix_dex_header_inv h
  have hout : (8 ≤ i ∧ i < 0x20) ∨ 0x28 ≤ i := by omega
  rcases hcase with ⟨hr, ho⟩ | ⟨hr, ho⟩
  · rcases hi with ⟨hi1, hi2⟩ | hi1
    · rw [ho, vecWrite_get?_lt _ (by rw [fixStage_length hlen]; omega) (by omega)]
      exact fixStage_get?_untouched hlen hout
    · rw [ho, vecWrite_get?_ge (by rw [fixStage_length hlen]; omega)
        (by rw [u32le_length]; omega)]
      exact fixStage_get?_untouched hlen hout
  · rw [ho]
    exact fixStage_get?_untouched hlen hout

theorem fix_dex_header_out_tag {dex out : List Nat}
    (h : fix_dex_header dex = some out) :
    ∃ t, readU32 out 0x28 = some t ∧ (t = 0x12345678 ∨ t = 0x78563412) := by
  obtain ⟨hlen, t, ht, hcase⟩ := fix_dex_header_inv h
  rcases hcase with ⟨hrec, ho⟩ | ⟨hrec, ho⟩
  · refine ⟨0x12345678, ?_, Or.inl rfl⟩
    rw [ho]
    exact readU32_vecWrite_u32le (by rw [fixStage_length hlen]; omega) (by norm_num)
  · refine ⟨t, ?_, hrec⟩
    rw [ho, fixStage_tag hlen]
    exact ht

/-! Claim theorems about header synthesis. -/

/-- C10: header synthesis succeeds exactly when the input buffer is at
least 0x2C bytes long (long enough to hold the endian-tag field), and on
success the output buffer has exactly the input's length; shorter inputs
yield no result. -/
theorem fix_dex_header_length_spec (dex : List Nat) :
    (fix_dex_header dex = none ↔ dex.length < 0x2C)
    ∧ ∀ out, fix_dex_header dex = some out → out.length = dex.length := by
  constructor
  · constructor
    · intro hnone
      by_contra hc
      obtain ⟨t, ht⟩ := readU32_isSome (v := dex) (a := 0x28) (by omega)
      unfold fix_dex_header at hnone
      rw [fixStage_tag (by omega), ht, Option.some_bind] at hnone
      by_cases hc2 : t ≠ 0x12345678 ∧ t ≠ 0x78563412
      · rw [if_pos hc2] at hnone
        cases hnone
      · rw [if_neg hc2] at hnone
        cases hnone
    · exact fix_dex_header_none_of_short
  · intro out h
    exact fix_dex_header_out_length h

/-- Witness for C10: a 0x2B-byte input is rejected, and on the 0x30-byte
sample the output length matches the input length. -/
theorem fix_dex_header_length_spec_witness :
    fix_dex_header (List.replicate 0x2B 3) = none
    ∧ sampleFixed.length = sampleDex.length := by
  constructor
  · exact (fix_dex_header_length_spec (List.replicate 0x2B 3)).1.mpr (by decide)
  · exact (fix_dex_header_length_spec sampleDex).2 sampleFixed (by decide)

/-- C8: on success, header synthesis changes at most the magic (bytes
0 to 7), the file-size field (0x20), the header-size field (0x24) and,
only when the existing endian tag is unrecognized, the endian-tag field
(0x28): bytes 8 to 0x1F and everything from 0x2C on are unchanged, and
when the input's tag is the canonical or the swapped tag, bytes
0x28 to 0x2B are unchanged as well. -/
theorem fix_dex_header_frame (dex out : List Nat)
    (h : fix_dex_header dex = some out) :
    (∀ i, 8 ≤ i → i < 0x20 → out.get? i = dex.get? i)
    ∧ (∀ i, 0x2C ≤ i → out.get? i = dex.get? i)
    ∧ (∀ tag, readU32 dex 0x28 = some tag →
        (tag = 0x12345678 ∨ tag = 0x78563412) →
        ∀ i, 0x28 ≤ i → i < 0x2C → out.get? i = dex.get? i) := by
  refine ⟨fun i hi1 hi2 => fix_dex_header_out_untouched h (Or.inl ⟨hi1, hi2⟩),
    fun i hi => fix_dex_header_out_untouched h (Or.inr hi), ?_⟩
  intro tag htag hrec i hi1 hi2
  obtain ⟨hlen, t, ht, hcase⟩ := fix_dex_header_inv h
  have htt : t = tag := Option.some.inj (ht.symm.trans htag)
  rcases hcase with ⟨hnr, ho⟩ | ⟨_, ho⟩
  · exact absurd (htt ▸ hrec) hnr
  · rw [ho]
    exact fixStage_get?_untouched hlen (Or.inr hi1)

/-- Witness for C8: on the sample synthesis, byte 9 and byte 0x2C are
unchanged, and with a canonical input tag byte 0x29 is unchanged too. -/
theorem fix_dex_header_frame_witness :
    sampleFixed.get? 9 = sampleDex.get? 9
    ∧ sampleFixed.get? 0x2C = sampleDex.get? 0x2C
    ∧ sampleFixed.get? 0x29 = (vecWrite sampleDex 0x28 (u32le 0x12345678)).get? 0x29 := by
  have hf : fix_dex_header sampleDex = some sampleFixed := by decide
  have hf2 : fix_dex_header (vecWrite sampleDex 0x28 (u32le 0x12345678))
      = some sampleFixed := by decide
  refine ⟨(fix_dex_header_frame sampleDex sampleFixed hf).1 9 (by omega) (by omega),
    (fix_dex_header_frame sampleDex sampleFixed hf).2.1 0x2C (by omega), ?_⟩
  exact (fix_dex_header_frame _ sampleFixed hf2).2.2 0x12345678 (by decide)
    (Or.inl rfl) 0x29 (by omega) (by omega)

/-- C7: header synthesis is idempotent: when it succeeds, running it again
on the output succeeds and returns the output unchanged. -/
theorem fix_dex_header_idempotent (dex out : List Nat)
    (h : fix_dex_header dex = some out) :
    fix_dex_header out = some out := by
  have hlen := (fix_dex_header_inv h).1
  have holen : out.length = dex.length := fix_dex_header_out_length h
  have h1 : vecWrite out 0 dexMagic = out := by
    apply vecWrite_self (by rw [dexMagic_length]; omega)
    intro i hi
    rw [Nat.zero_add]
    exact fix_dex_header_out_magic h (by rw [dexMagic_length] at hi; omega)
  have h2 : vecWrite out 0x20 (u32le (out.length % 2^32)) = out := by
    apply vecWrite_self (by rw [u32le_length]; omega)
    intro i hi
    rw [holen]
    exact fix_dex_header_out_size h (by rw [u32le_length] at hi; omega)
  have h3 : vecWrite out 0x24 (u32le 0x70) = out := by
    apply vecWrite_self (by rw [u32le_length]; omega)
    intro i hi
    exact fix_dex_header_out_hdr h (by rw [u32le_length] at hi; omega)
  have hstage : fixStage out = out := by
    unfold fixStage
    rw [h1, h2, h3]
  obtain ⟨t, htag, hrec⟩ := fix_dex_header_out_tag h
  have key := fix_dex_header_eq_if (by omega) htag
  have hcond : ¬(t ≠ 0x12345678 ∧ t ≠ 0x78563412) :=
    fun hc => hrec.elim (fun hh => hc.1 hh) (fun hh => hc.2 hh)
  rw [if_neg hcond, hstage] at key
  exact key

/-- Witness for C7: synthesis on the already-synthesized sample output
returns it unchanged. -/
theorem fix_dex_header_idempotent_witness :
    fix_dex_header sampleFixed = some sampleFixed :=
  fix_dex_header_idempotent sampleDex sampleFixed (by decide)

/-! Lemmas and claim theorems about size recovery. -/

theorem guess_dex_size_eq {mem : List Nat} {addr fs mo : Nat}
    (h20 : readU32 mem (addr + 0x20) = some fs)
    (h3c : readU32 mem (addr + 0x3c) = some 0x70)
    (h34 : readU32 mem (addr + 0x34) = some mo) :
    guess_dex_size mem addr = (readU32 mem (addr + mo)).bind (fun map_size =>
      (checkedMul32 map_size 0xC).bind (fun m =>
        (checkedAdd32 mo m).bind (fun s =>
          (checkedAdd32 s 4).bind (fun real_size => some (fs, real_size))))) := by
  unfold guess_dex_size
  simp only [Option.bind_eq_bind]
  rw [h20, Option.some_bind, h3c, Option.some_bind, if_neg (fun hh => hh rfl),
    h34, Option.some_bind]

theorem guess_dex_size_none_of_ids_none {mem : List Nat} {addr : Nat}
    (h3c : readU32 mem (addr + 0x3c) = none) :
    guess_dex_size mem addr = none := by
  unfold guess_dex_size
  simp only [Option.bind_eq_bind]
  cases h20 : readU32 mem (addr + 0x20) with
  | none => rw [Option.none_bind]
  | some fs => rw [Option.some_bind, h3c, Option.none_bind]

theorem guess_dex_size_none_of_ids_ne {mem : List Nat} {addr v : Nat}
    (h3c : readU32 mem (addr + 0x3c) = some v) (hv : v ≠ 0x70) :
    guess_dex_size mem addr = none := by
  unfold guess_dex_size
  simp only [Option.bind_eq_bind]
  cases h20 : readU32 mem (addr + 0x20) with
  | none => rw [Option.none_bind]
  | some fs => rw [Option.some_bind, h3c, Option.some_bind, if_pos hv]

/-- C1 (counterexample): the claim fails on the code in two ways.  On a
buffer matching the magic with a consistent string-ids field whose
checked size computation overflows u32, recovery returns no result
instead of the formula value; and when the entry-count window at the map
offset overlaps the declared file-size field (map offset 0x20), changing
only the declared file-size field changes the recovered size. -/
theorem guess_dex_size_claim_cex :
    ((overflowDex.drop 0).take 8 = dexMagic
      ∧ readU32 overflowDex (0 + 0x3c) = some 0x70
      ∧ guess_dex_size overflowDex 0 = none)
    ∧ (aliasDexB = vecWrite aliasDexA 0x20 (u32le 2)
      ∧ (aliasDexA.drop 0).take 8 = dexMagic
      ∧ readU32 aliasDexA (0 + 0x3c) = some 0x70
      ∧ readU32 aliasDexB (0 + 0x3c) = some 0x70
      ∧ Option.map Prod.snd (guess_dex_size aliasDexA 0) = some 48
      ∧ Option.map Prod.snd (guess_dex_size aliasDexB 0) = some 60) := by
  refine ⟨⟨?_, ?_, ?_⟩, ?_, ?_, ?_, ?_, ?_, ?_⟩ <;> decide

/-- C1 (amended): for a buffer matching the DEX magic whose string-ids
field reads as 0x70, if the entry-count read at the map offset succeeds
and the checked computation map_off + count * 12 + 4 fits in u32, the
recovery returns exactly that size next to the declared file size; the
recovered size is independent of the declared file-size field provided
the entry-count window does not overlap it; and whenever the string-ids
field reads as a value other than 0x70, recovery returns no result. -/
theorem guess_dex_size_spec :
    (∀ (mem : List Nat) (addr fs mo ms : Nat),
      (mem.drop addr).take 8 = dexMagic →
      readU32 mem (addr + 0x20) = some fs →
      readU32 mem (addr + 0x3c) = some 0x70 →
      readU32 mem (addr + 0x34) = some mo →
      readU32 mem (addr + mo) = some ms →
      mo + ms * 12 + 4 < 2^32 →
      guess_dex_size mem addr = some (fs, mo + ms * 12 + 4))
    ∧ (∀ (mem mem' : List Nat) (addr mo : Nat),
      (∀ i, i < addr + 0x20 ∨ addr + 0x24 ≤ i → mem.get? i = mem'.get? i) →
      readU32 mem (addr + 0x34) = some mo →
      (mo + 4 ≤ 0x20 ∨ 0x24 ≤ mo) →
      Option.map Prod.snd (guess_dex_size mem addr)
        = Option.map Prod.snd (guess_dex_size mem' addr))
    ∧ (∀ (mem : List Nat) (addr v : Nat),
      readU32 mem (addr + 0x3c) = some v → v ≠ 0x70 →
      guess_dex_size mem addr = none) := by
  refine ⟨?_, ?_, ?_⟩
  · intro mem addr fs mo ms hmagic h20 h3c h34 hms hfit
    rw [guess_dex_size_eq h20 h3c h34, hms, Option.some_bind]
    unfold checkedMul32 checkedAdd32
    rw [if_pos (by omega), Option.some_bind, if_pos (by omega), Option.some_bind,
      if_pos (by omega), Option.some_bind]
  · intro mem mem' addr mo hagree h34 hdisj
    have e3c : readU32 mem (addr + 0x3c) = readU32 mem' (addr + 0x3c) :=
      readU32_congr (fun j hj1 hj2 => hagree j (Or.inr (by omega)))
    have e34 : readU32 mem (addr + 0x34) = readU32 mem' (addr + 0x34) :=
      readU32_congr (fun j hj1 hj2 => hagree j (Or.inr (by omega)))
    have emo : readU32 mem (addr + mo) = readU32 mem' (addr + mo) := by
      apply readU32_congr
      intro j hj1 hj2
      rcases hdisj with hd | hd
      · exact hagree j (Or.inl (by omega))
      · exact hagree j (Or.inr (by omega))
    cases hv : readU32 mem (addr + 0x3c) with
    | none =>
      rw [guess_dex_size_none_of_ids_none hv,
        guess_dex_size_none_of_ids_none (e3c ▸ hv)]
    | some v =>
      by_cases hv70 : v = 0x70
      · subst hv70
        have hlen : addr + 0x40 ≤ mem.length := by
          have := readU32_some_length hv
          omega
        have hlen' : addr + 0x40 ≤ mem'.length := by
          have := readU32_some_length (e3c ▸ hv)
          omega
        obtain ⟨fs, h20⟩ := readU32_isSome (v := mem) (a := addr + 0x20) (by omega)
        obtain ⟨fs', h20'⟩ := readU32_isSome (v := mem') (a := addr + 0x20) (by omega)
        rw [guess_dex_size_eq h20 hv h34, guess_dex_size_eq h20' (e3c ▸ hv) (e34 ▸ h34)]
        rw [← emo]
        cases hmo : readU32 mem (addr + mo) with
        | none => rfl
        | some ms =>
          rw [Option.some_bind, Option.some_bind]
          cases checkedMul32 ms 0xC with
          | none => rfl
          | some m =>
            rw [Option.some_bind, Option.some_bind]
            cases checkedAdd32 mo m with
            | none => rfl
            | some s =>
              rw [Option.some_bind, Option.some_bind]
              cases checkedAdd32 s 4 with
              | none => rfl
              | some real => rfl
      · rw [guess_dex_size_none_of_ids_ne hv hv70,
          guess_dex_size_none_of_ids_ne (e3c ▸ hv) hv70]
  · intro mem addr v h3c hv
    exact guess_dex_size_none_of_ids_ne h3c hv

/-- Witness for the amended C1: on the well-formed sample the recovery
returns the map-derived size, changing only the declared file-size field
leaves the recovered size unchanged, and an inconsistent string-ids field
yields no result. -/
theorem guess_dex_size_spec_witness :
    guess_dex_size goodDex 0 = some (0, 140)
    ∧ Option.map Prod.snd (guess_dex_size goodDex 0)
        = Option.map Prod.snd (guess_dex_size goodDexB 0)
    ∧ guess_dex_size badIdsDex 0 = none := by
  refine ⟨?_, ?_, ?_⟩
  · exact guess_dex_size_spec.1 goodDex 0 0 0x70 2 (by decide) (by decide)
      (by decide) (by decide) (by decide) (by omega)
  · apply guess_dex_size_spec.2.1 goodDex goodDexB 0 0x70 ?_ (by decide)
      (Or.inr (by omega))
    intro i hi
    rw [show goodDexB = vecWrite goodDex 0x20 (u32le 9) from rfl]
    rcases hi with hi | hi
    · exact (vecWrite_get?_lt _ (by decide) (by omega)).symm
    · exact (vecWrite_get?_ge (p := 0x20) (by decide)
        (by rw [u32le_length]; omega)).symm
  · exact guess_dex_size_spec.2.2 badIdsDex 0 5 (by decide) (by omega)

/-! Lemmas and claim theorems about the maps-table enumeration. -/

theorem exceptBind_ok {ε α β : Type} (a : α) (f : α → Except ε β) :
    (Except.ok a : Except ε α) >>= f = f a := rfl

theorem exceptBind_err {ε α β : Type} (e : ε) (f : α → Except ε β) :
    (Except.error e : Except ε α) >>= f = .error e := rfl

theorem parse_proc_maps_skip {line : String} {rest : List String}
    (h : (splitWs line).length < 6) :
    parse_proc_maps (line :: rest) = parse_proc_maps rest := by
  simp only [parse_proc_maps]
  rw [if_neg (by omega)]

theorem parse_proc_maps_cons_ok {line : String} {rest : List String}
    {m : MemoryMapping} {ms : List MemoryMapping}
    (h6 : 6 ≤ (splitWs line).length)
    (hm : parseMapsFields (splitWs line) = .ok m)
    (hrest : parse_proc_maps rest = .ok ms) :
    parse_proc_maps (line :: rest) = .ok (m :: ms) := by
  simp only [parse_proc_maps]
  rw [if_pos h6, hm, exceptBind_ok, hrest, exceptBind_ok]

theorem parse_proc_maps_cons_inv {line : String} {rest : List String}
    {ms : List MemoryMapping}
    (h6 : 6 ≤ (splitWs line).length)
    (h : parse_proc_maps (line :: rest) = .ok ms) :
    ∃ m ms', parseMapsFields (splitWs line) = .ok m
      ∧ parse_proc_maps rest = .ok ms' ∧ ms = m :: ms' := by
  simp only [parse_proc_maps] at h
  rw [if_pos h6] at h
  cases hm : parseMapsFields (splitWs line) with
  | error e =>
    rw [hm, exceptBind_err] at h
    cases h
  | ok m =>
    rw [hm, exceptBind_ok] at h
    cases hr : parse_proc_maps rest with
    | error e =>
      rw [hr, exceptBind_err] at h
      cases h
    | ok ms' =>
      rw [hr, exceptBind_ok] at h
      exact ⟨m, ms', rfl, rfl, (Except.ok.inj h).symm⟩

/-- C4 (counterexample): the two well-formed lines alone enumerate fine,
but inserting between them a line with six fields whose address field is
not hexadecimal aborts the whole enumeration with a parse error instead
of being skipped. -/
theorem parse_proc_maps_claim_cex :
    (parse_proc_maps [mapsLineLow, mapsLineHigh]).isOk = true
    ∧ 6 ≤ (splitWs mapsLineBad).length
    ∧ parse_proc_maps [mapsLineLow, mapsLineBad, mapsLineHigh]
        = .error .parseErr := by
  refine ⟨?_, ?_, ?_⟩ <;> decide

/-- C4 (amended): a line with fewer than six whitespace-separated fields
is skipped and enumeration continues with the remaining lines; but a line
with six or more fields whose numeric fields fail to parse (or whose
address field lacks a dash separator) aborts the entire enumeration with
that parse error. -/
theorem parse_proc_maps_spec :
    (∀ (line : String) (rest : List String), (splitWs line).length < 6 →
      parse_proc_maps (line :: rest) = parse_proc_maps rest)
    ∧ (∀ (pre : List String) (line : String) (post : List String)
        (ms : List MemoryMapping) (e : SoErr),
      parse_proc_maps pre = .ok ms →
      6 ≤ (splitWs line).length →
      parseMapsFields (splitWs line) = .error e →
      parse_proc_maps (pre ++ line :: post) = .error e) := by
  constructor
  · intro line rest h
    exact parse_proc_maps_skip h
  · intro pre line post ms e hpre h6 herr
    induction pre generalizing ms with
    | nil =>
      simp only [List.nil_append, parse_proc_maps]
      rw [if_pos h6, herr, exceptBind_err]
    | cons l pre' ih =>
      rw [List.cons_append]
      by_cases h6l : 6 ≤ (splitWs l).length
      · obtain ⟨m, ms', hm, hrest, hms⟩ := parse_proc_maps_cons_inv h6l hpre
        simp only [parse_proc_maps]
        rw [if_pos h6l, hm, exceptBind_ok, ih ms' hrest, exceptBind_err]
      · rw [parse_proc_maps_skip (by omega)]
        rw [parse_proc_maps_skip (by omega)] at hpre
        exact ih ms hpre

/-- Witness for the amended C4: a two-field line is skipped, and a
concrete aborting run built from the general abort statement. -/
theorem parse_proc_maps_spec_witness :
    parse_proc_maps ["short line", mapsLineLow] = parse_proc_maps [mapsLineLow]
    ∧ parse_proc_maps [mapsLineLow, mapsLineBad, mapsLineHigh]
        = .error .parseErr := by
  constructor
  · exact parse_proc_maps_spec.1 "short line" [mapsLineLow] (by decide)
  · exact parse_proc_maps_spec.2 [mapsLineLow] mapsLineBad [mapsLineHigh]
      [⟨0x10000, 0x20000, "r-xp", 0, "fd:00", 1234, "/data/app/libfoo.so"⟩]
      .parseErr (by decide) (by decide) (by decide)

/-! Claim theorems about the size-selection clamp. -/

/-- C3: the size finally used for dumping is the structured walk's size
when the walk succeeds with a size at most ten times the raw mapped-region
size; otherwise the raw fallback's size when it succeeds with a size at
most ten times the raw size; otherwise the raw mapped-region size — in
particular, a resolved size strictly above ten times the raw size is
discarded in favor of the raw size.  The hypothesis keeps the u64 product
ten times the raw size from wrapping. -/
theorem choose_so_size_spec (fr sr : Except SoErr Nat) (ts : Nat)
    (h : ts * 10 < 2^64) :
    (∀ s, fr = .ok s → s ≤ ts * 10 → choose_so_size fr sr ts = s)
    ∧ (∀ s, fr = .ok s → ts * 10 < s → choose_so_size fr sr ts = ts)
    ∧ (∀ e s, fr = .error e → sr = .ok s → s ≤ ts * 10 →
        choose_so_size fr sr ts = s)
    ∧ (∀ e s, fr = .error e → sr = .ok s → ts * 10 < s →
        choose_so_size fr sr ts = ts)
    ∧ (∀ e e', fr = .error e → sr = .error e' → choose_so_size fr sr ts = ts) := by
  refine ⟨?_, ?_, ?_, ?_, ?_⟩
  · intro s hfr hle
    subst hfr
    simp only [choose_so_size]
    rw [if_neg (by omega)]
  · intro s hfr hgt
    subst hfr
    simp only [choose_so_size]
    rw [if_pos (by omega)]
  · intro e s hfr hsr hle
    subst hfr
    subst hsr
    simp only [choose_so_size]
    rw [if_neg (by omega)]
  · intro e s hfr hsr hgt
    subst hfr
    subst hsr
    simp only [choose_so_size]
    rw [if_pos (by omega)]
  · intro e e' hfr hsr
    subst hfr
    subst hsr
    simp only [choose_so_size]

/-- Witness for C3: each branch of the selection at concrete values. -/
theorem choose_so_size_spec_witness :
    choose_so_size (.ok 5) (.error .readFail) 100 = 5
    ∧ choose_so_size (.ok 5000) (.ok 7) 100 = 100
    ∧ choose_so_size (.error .chainExhausted) (.ok 7) 100 = 7
    ∧ choose_so_size (.error .chainExhausted) (.ok 5000) 100 = 100
    ∧ choose_so_size (.error .chainExhausted) (.error .chainNotFound) 100 = 100 := by
  refine ⟨?_, ?_, ?_, ?_, ?_⟩
  · exact (choose_so_size_spec (.ok 5) (.error .readFail) 100 (by omega)).1
      5 rfl (by omega)
  · exact (choose_so_size_spec (.ok 5000) (.ok 7) 100 (by omega)).2.1
      5000 rfl (by omega)
  · exact (choose_so_size_spec (.error .chainExhausted) (.ok 7) 100 (by omega)).2.2.1
      .chainExhausted 7 rfl rfl (by omega)
  · exact (choose_so_size_spec (.error .chainExhausted) (.ok 5000) 100
      (by omega)).2.2.2.1 .chainExhausted 5000 rfl rfl (by omega)
  · exact (choose_so_size_spec (.error .chainExhausted) (.error .chainNotFound) 100
      (by omega)).2.2.2.2 .chainExhausted .chainNotFound rfl rfl

/-! Lemmas and claim theorems about the soinfo-chain walk. -/

theorem find_loop_zero (mem : MemOracle) (target cur : Nat) :
    find_loop mem target cur 0 = (.error .chainExhausted, 0) := rfl

theorem find_loop_succ_null (mem : MemOracle) (target n : Nat) :
    find_loop mem target 0 (n + 1) = (.error .chainExhausted, 0) := rfl

theorem find_loop_succ_err {mem : MemOracle} {target cur n : Nat} {e : SoErr}
    (hc : cur ≠ 0) (hp : parse_soinfo mem cur = .error e) :
    find_loop mem target cur (n + 1) = (.error e, 1) := by
  simp only [find_loop]
  rw [if_neg hc, hp]

theorem find_loop_succ_hit {mem : MemOracle} {target cur n : Nat} {so : SoInfo}
    (hc : cur ≠ 0) (hp : parse_soinfo mem cur = .ok so) (hb : so.base = target) :
    find_loop mem target cur (n + 1) = (.ok so.size, 1) := by
  simp only [find_loop]
  rw [if_neg hc, hp]
  show (if so.base = target then ((Except.ok so.size : Except SoErr Nat), 1)
    else ((find_loop mem target so.next n).1, (find_loop mem target so.next n).2 + 1))
    = ((Except.ok so.size : Except SoErr Nat), 1)
  rw [if_pos hb]

theorem find_loop_succ_miss {mem : MemOracle} {target cur n : Nat} {so : SoInfo}
    (hc : cur ≠ 0) (hp : parse_soinfo mem cur = .ok so) (hb : so.base ≠ target) :
    find_loop mem target cur (n + 1)
      = ((find_loop mem target so.next n).1, (find_loop mem target so.next n).2 + 1) := by
  simp only [find_loop]
  rw [if_neg hc, hp]
  show (if so.base = target then ((Except.ok so.size : Except SoErr Nat), 1)
    else ((find_loop mem target so.next n).1, (find_loop mem target so.next n).2 + 1))
    = ((find_loop mem target so.next n).1, (find_loop mem target so.next n).2 + 1)
  rw [if_neg hb]

theorem find_loop_bound (mem : MemOracle) (target : Nat) :
    ∀ (fuel cur : Nat),
      (find_loop mem target cur fuel).2 ≤ fuel
      ∧ (∀ s, (find_loop mem target cur fuel).1 = .ok s →
          ∃ a n, parse_soinfo mem a = .ok ⟨target, s, n⟩)
      ∧ (∀ e, (find_loop mem target cur fuel).1 = .error e →
          cur = 0 ∨ (find_loop mem target cur fuel).2 = fuel
          ∨ (∃ a so, parse_soinfo mem a = .ok so ∧ so.next = 0 ∧ so.base ≠ target)
          ∨ (∃ a e', parse_soinfo mem a = .error e')) := by
  intro fuel
  induction fuel with
  | zero =>
    intro cur
    rw [find_loop_zero]
    refine ⟨Nat.le_refl 0, ?_, ?_⟩
    · intro s h
      cases h
    · intro e h
      exact Or.inr (Or.inl rfl)
  | succ n ih =>
    intro cur
    by_cases hc : cur = 0
    · subst hc
      rw [find_loop_succ_null]
      refine ⟨by omega, ?_, ?_⟩
      · intro s h
        cases h
      · intro e h
        exact Or.inl rfl
    · cases hp : parse_soinfo mem cur with
      | error e' =>
        rw [find_loop_succ_err hc hp]
        refine ⟨by omega, ?_, ?_⟩
        · intro s h
          cases h
        · intro e h
          exact Or.inr (Or.inr (Or.inr ⟨cur, e', hp⟩))
      | ok so =>
        by_cases hb : so.base = target
        · rw [find_loop_succ_hit hc hp hb]
          refine ⟨by omega, ?_, ?_⟩
          · intro s h
            have hs : so.size = s := by
              cases h
              rfl
            refine ⟨cur, so.next, ?_⟩
            rw [hp]
            obtain ⟨b, sz, nx⟩ := so
            simp only at hb hs
            rw [hb, hs]
          · intro e h
            cases h
        · rw [find_loop_succ_miss hc hp hb]
          obtain ⟨ih1, ih2, ih3⟩ := ih so.next
          refine ⟨by omega, ?_, ?_⟩
          · intro s h
            exact ih2 s h
          · intro e h
            rcases ih3 e h with hz | hf | hrec | hrec
            · exact Or.inr (Or.inr (Or.inl ⟨cur, so, hp, hz, hb⟩))
            · exact Or.inr (Or.inl (by omega))
            · exact Or.inr (Or.inr (Or.inl hrec))
            · exact Or.inr (Or.inr (Or.inr hrec))

/-- C6 (counterexample): the claim's list of stop conditions is not
exhaustive.  On a chain whose head record at address 100 has base 1 and a
non-null next pointer 200 where the record read fails, the walk stops
with an error after two visits — the head is not null, the cap of 1000 is
nowhere near reached, no visited record matched the target base 5, and no
visited record had a null next pointer: the stop was a failed record
read. -/
theorem find_target_soinfo_claim_cex :
    (find_target_soinfo soMemTwo 100 5).1 = .error .readFail
    ∧ (find_target_soinfo soMemTwo 100 5).2 = 2
    ∧ (100 : Nat) ≠ 0
    ∧ parse_soinfo soMemTwo 100 = .ok ⟨1, 10, 200⟩
    ∧ parse_soinfo soMemTwo 200 = .error .readFail := by
  refine ⟨?_, ?_, ?_, ?_, ?_⟩ <;> decide

/-- C6 (amended): the chain walk visits at most MAX_ITERATIONS = 1000
records and terminates for every memory content, cyclic next chains
included; a successful walk returns the size field of a record whose base
equals the target; the stop conditions are base match, a null head or
null next pointer, reaching the cap (exactly 1000 visits), or a failed
record read — the last also failing the traversal and triggering the
fallback. -/
theorem find_target_soinfo_spec (mem : MemOracle) (solist_head target_base : Nat) :
    (find_target_soinfo mem solist_head target_base).2 ≤ 1000
    ∧ (∀ s, (find_target_soinfo mem solist_head target_base).1 = .ok s →
        ∃ a n, parse_soinfo mem a = .ok ⟨target_base, s, n⟩)
    ∧ (∀ e, (find_target_soinfo mem solist_head target_base).1 = .error e →
        solist_head = 0
        ∨ (find_target_soinfo mem solist_head target_base).2 = 1000
        ∨ (∃ a so, parse_soinfo mem a = .ok so ∧ so.next = 0 ∧ so.base ≠ target_base)
        ∨ (∃ a e', parse_soinfo mem a = .error e')) :=
  find_loop_bound mem target_base 1000 solist_head

/-- Witness for C6: on a one-record address space the walk stays within
the cap and the success case exhibits the matching record. -/
theorem find_target_soinfo_spec_witness :
    (find_target_soinfo soMemOne 64 5).2 ≤ 1000
    ∧ ∃ a n, parse_soinfo soMemOne a = .ok ⟨5, 77, n⟩ := by
  refine ⟨(find_target_soinfo_spec soMemOne 64 5).1, ?_⟩
  exact (find_target_soinfo_spec soMemOne 64 5).2.1 77 (by decide)

/-! Lemmas and claim theorem about the 32-bit rejection path. -/

theorem option_some_orElse {α : Type} (a : α) (f : Unit → Option α) :
    (some a).orElse f = some a := rfl

theorem option_none_orElse {α : Type} (f : Unit → Option α) :
    (none : Option α).orElse f = f () := rfl

theorem targetFoldStep_pos {tname : String} {acc : Option Nat × Option Nat}
    {m : MemoryMapping} (h : strContains m.pathname tname = true) :
    targetFoldStep tname acc m = ((acc.1).orElse (fun _ => some m.start), some m.stop) := by
  unfold targetFoldStep
  rw [if_pos h]

theorem targetFoldStep_neg {tname : String} {acc : Option Nat × Option Nat}
    {m : MemoryMapping} (h : ¬ strContains m.pathname tname = true) :
    targetFoldStep tname acc m = acc := by
  unfold targetFoldStep
  rw [if_neg h]

theorem targetFold_fst_some (tname : String) :
    ∀ (maps : List MemoryMapping) (a : Nat) (e : Option Nat),
      ((maps.foldl (targetFoldStep tname) (some a, e)).1) = some a := by
  intro maps
  induction maps with
  | nil =>
    intro a e
    rfl
  | cons m t ih =>
    intro a e
    rw [List.foldl_cons]
    by_cases hm : strContains m.pathname tname
    · rw [targetFoldStep_pos hm]
      rw [show ((some a, e).1 : Option Nat) = some a from rfl, option_some_orElse]
      exact ih a (some m.stop)
    · rw [targetFoldStep_neg hm]
      exact ih a e

theorem targetFold_fst_find (tname : String) :
    ∀ (maps : List MemoryMapping) (e : Option Nat),
      ((maps.foldl (targetFoldStep tname) (none, e)).1)
        = ((maps.find? (fun m => strContains m.pathname tname)).map
            (fun m => m.start)) := by
  intro maps
  induction maps with
  | nil =>
    intro e
    rfl
  | cons m t ih =>
    intro e
    rw [List.foldl_cons]
    by_cases hm : strContains m.pathname tname
    · rw [targetFoldStep_pos hm, List.find?_cons_of_pos t hm]
      rw [show (((none : Option Nat), e).1 : Option Nat) = none from rfl,
        option_none_orElse]
      rw [targetFold_fst_some tname t m.start (some m.stop)]
      rfl
    · rw [targetFoldStep_neg hm, List.find?_cons_of_neg t hm]
      exact ih e

theorem targetFold_snd_some (tname : String) :
    ∀ (maps : List MemoryMapping) (acc : Option Nat × Option Nat),
      (acc.2.isSome = true ∨ ∃ m ∈ maps, strContains m.pathname tname = true) →
      ((maps.foldl (targetFoldStep tname) acc).2).isSome = true := by
  intro maps
  induction maps with
  | nil =>
    intro acc h
    rcases h with h | ⟨m, hm, _⟩
    · exact h
    · cases hm
  | cons m t ih =>
    intro acc h
    rw [List.foldl_cons]
    by_cases hm : strContains m.pathname tname
    · rw [targetFoldStep_pos hm]
      exact ih _ (Or.inl rfl)
    · rw [targetFoldStep_neg hm]
      apply ih acc
      rcases h with h | ⟨m', hm', hp'⟩
      · exact Or.inl h
      · rcases List.mem_cons.mp hm' with heq | hmt
        · exact absurd (heq ▸ hp') hm
        · exact Or.inr ⟨m', hmt, hp'⟩

theorem find?_start_le {p : MemoryMapping → Bool} :
    ∀ (maps : List MemoryMapping) (m0 m : MemoryMapping),
      List.Pairwise (fun a b => a.start ≤ b.start) maps →
      maps.find? p = some m0 → m ∈ maps → p m = true →
      m0.start ≤ m.start := by
  intro maps
  induction maps with
  | nil =>
    intro m0 m _ hf
    cases hf
  | cons h t ih =>
    intro m0 m hpair hf hmem hpm
    rw [List.pairwise_cons] at hpair
    by_cases hph : p h
    · rw [List.find?_cons_of_pos t hph] at hf
      have hm0 : h = m0 := Option.some.inj hf
      rcases List.mem_cons.mp hmem with heq | hmt
      · rw [heq, ← hm0]
      · rw [← hm0]
        exact hpair.1 m hmt
    · rw [List.find?_cons_of_neg t hph] at hf
      rcases List.mem_cons.mp hmem with heq | hmt
      · rw [heq] at hpm
        exact absurd hpm hph
      · exact ih m0 m hpair.2 hf hmt hpm

theorem get_target_mapping_bit32 {lines : List String} {tname : String}
    {maps : List MemoryMapping}
    (hparse : parse_proc_maps lines = .ok maps)
    (hsorted : List.Pairwise (fun a b => a.start ≤ b.start) maps)
    (hlow : ∃ m ∈ maps, strContains m.pathname tname = true ∧ m.start ≤ 0x7fffffff) :
    get_target_mapping lines tname = .error .bit32 := by
  obtain ⟨m, hmem, hp, hle⟩ := hlow
  have hfind : ∃ m0, maps.find? (fun m => strContains m.pathname tname) = some m0 := by
    rw [← Option.isSome_iff_exists, List.find?_isSome]
    exact ⟨m, hmem, hp⟩
  obtain ⟨m0, hm0⟩ := hfind
  have hfst : ((maps.foldl (targetFoldStep tname) (none, none)).1) = some m0.start := by
    rw [targetFold_fst_find tname maps none, hm0]
    rfl
  have hsnd : ((maps.foldl (targetFoldStep tname) (none, none)).2).isSome = true :=
    targetFold_snd_some tname maps (none, none) (Or.inr ⟨m, hmem, hp⟩)
  obtain ⟨e0, he0⟩ := Option.isSome_iff_exists.mp hsnd
  have hpairval : maps.foldl (targetFoldStep tname) (none, none)
      = (some m0.start, some e0) := by
    have := Prod.mk.eta (p := maps.foldl (targetFoldStep tname) (none, none))
    rw [← this, hfst, he0]
  have hstart : m0.start ≤ 0x7fffffff :=
    Nat.le_trans (find?_start_le maps m0 m hsorted hm0 hmem hp) hle
  unfold get_target_mapping
  rw [hparse, exceptBind_ok, hpairval]
  show (if m0.start > 0x7fffffff then
      (Except.ok (m0.start, e0) : Except SoErr (Nat × Nat))
    else Except.error SoErr.bit32) = Except.error SoErr.bit32
  rw [if_neg (by omega)]

/-- C9: when the lowest mapping start of the target (the first match in
the address-sorted maps table) is not above 0x7fffffff, the dump body
fails with the unsupported-architecture error and performs no read of the
target address space at all, for every memory content. -/
theorem soDumpBody_bit32_spec (solist_offset : Nat) (target_name : String)
    (lines : List String) (mem : MemOracle) (writeOk : Bool)
    (maps : List MemoryMapping)
    (hparse : parse_proc_maps lines = .ok maps)
    (hlinker : ∃ m ∈ maps, strContains m.pathname "linker64" = true)
    (hsorted : List.Pairwise (fun a b => a.start ≤ b.start) maps)
    (hlow : ∃ m ∈ maps, strContains m.pathname target_name = true
      ∧ m.start ≤ 0x7fffffff) :
    soDumpBody solist_offset target_name lines mem writeOk
      = (.error .bit32, 0) := by
  obtain ⟨ml, hmeml, hpl⟩ := hlinker
  have hfind : ∃ m0, maps.find? (fun m => strContains m.pathname "linker64")
      = some m0 := by
    rw [← Option.isSome_iff_exists, List.find?_isSome]
    exact ⟨ml, hmeml, hpl⟩
  obtain ⟨m0, hm0⟩ := hfind
  have hlb : get_linker_base lines = .ok m0.start := by
    unfold get_linker_base
    rw [hparse, exceptBind_ok, hm0]
  have htm : get_target_mapping lines target_name = .error .bit32 :=
    get_target_mapping_bit32 hparse hsorted hlow
  unfold soDumpBody
  rw [hlb, htm]

/-- Witness for C9: a sorted two-line maps table with the linker high and
the target at a 32-bit base is rejected with no memory read. -/
theorem soDumpBody_bit32_spec_witness :
    soDumpBody 0x1000 "libfoo.so" [mapsLineLow, mapsLineLinker] soMemOne true
      = (.error .bit32, 0) := by
  apply soDumpBody_bit32_spec 0x1000 "libfoo.so" [mapsLineLow, mapsLineLinker]
    soMemOne true
    [⟨0x10000, 0x20000, "r-xp", 0, "fd:00", 1234, "/data/app/libfoo.so"⟩,
     ⟨0x7123456000, 0x7123457000, "r-xp", 0, "fd:00", 99, "/system/bin/linker64"⟩]
  · decide
  · decide
  · decide
  · decide

/-! Claim theorems about pause and resume. -/

/-- C2 (counterexample): a panic in the so extraction closure after a
successful pause ends the run with no resume attempt at all — zero
SIGCONT attempts rather than exactly one — because SoDumper has no Drop
implementation to send the resume. -/
theorem soDumpTrace_claim_cex :
    (soDumpTrace true .panicked true).2 = [.stp]
    ∧ ((soDumpTrace true .panicked true).2.count .cont) = 0 := by
  constructor <;> decide

/-- C2 (amended): for every dex run whose pause succeeded, exactly one
resume attempt is made on every exit path, including a panic of
search_dex, via the Drop implementation; for every so run whose pause
succeeded, exactly one resume attempt is made on the success and
caught-error paths, and none when the extraction closure panics. -/
theorem dumpTrace_resume_spec :
    (∀ (mapsOk : Bool) (search : StepOut) (contOk : Bool),
      ((dexDumpTrace true mapsOk search contOk).2.count .cont) = 1)
    ∧ (∀ (body : StepOut) (contOk : Bool), body ≠ .panicked →
      ((soDumpTrace true body contOk).2.count .cont) = 1)
    ∧ (∀ (contOk : Bool),
      ((soDumpTrace true .panicked contOk).2.count .cont) = 0) := by
  refine ⟨?_, ?_, ?_⟩
  · intro mapsOk search contOk
    cases mapsOk <;> cases search <;> cases contOk <;> decide
  · intro body contOk h
    cases body <;> cases contOk <;> first
      | decide
      | exact absurd rfl h
  · intro contOk
    cases contOk <;> decide

/-- Witness for the amended C2: a run whose every step after the pause
fails still makes exactly one resume attempt. -/
theorem dumpTrace_resume_spec_witness :
    ((soDumpTrace true .err false).2.count .cont) = 1 :=
  dumpTrace_resume_spec.2.1 .err false (by decide)

/-- C5 (counterexample): with the extraction work succeeded and the
resume failing, the so run reports an error rather than success — the
resume failure is escalated by the question-mark operator. -/
theorem soDumpTrace_resume_mask_cex :
    soDumpTrace true .ok false = (.err, [.stp, .cont]) := by decide

/-- C5 (amended): the dex engine's destructor discards the resume
failure, so a dex run's result never depends on it; the so engine
escalates a resume failure, reporting a failed run even when extraction
succeeded, and reports the extraction outcome unchanged when the resume
succeeds. -/
theorem dumpTrace_result_spec :
    (∀ (stopOk mapsOk : Bool) (search : StepOut) (c c' : Bool),
      (dexDumpTrace stopOk mapsOk search c).1
        = (dexDumpTrace stopOk mapsOk search c').1)
    ∧ (∀ (body : StepOut), (soDumpTrace true body true).1 = body)
    ∧ (soDumpTrace true .ok false).1 = .err := by
  refine ⟨?_, ?_, ?_⟩
  · intro stopOk mapsOk search c c'
    rfl
  · intro body
    cases body <;> rfl
  · rfl

end TinyDump
